import Mathlib

/-!
Shallow embedding of the AT Utilisation Explorer pipeline
(`src/streamlit_app.py`): ingestion, schema normalisation, the two-step
left join, the breach filter, plan draw-down and grouped utilisation
arithmetic, and the cumulative paid-claim curve.  Pandas `NaN` behaviour
is made explicit: nullable columns are `Option` values and float results
that may be `inf`/`NaN` live in the `PFloat` type.
-/

namespace ATUtil

/-- Python `str.lower()`: lower-case every character.  (Structural
version of `String.toLower`, so that terms evaluate by reduction.) -/
def lowerStr (s : String) : String :=
  ⟨s.data.map Char.toLower⟩

/-- Substring test on character lists: `containsSeq n h` is true when the
sequence `n` occurs contiguously inside `h` (the semantics of Python's
`in` / `re.search` for a literal pattern). -/
def containsSeq (needle : List Char) : List Char → Bool
  | [] => needle.isEmpty
  | c :: rest => needle.isPrefixOf (c :: rest) || containsSeq needle rest

/-- The degenerative-condition keywords of the regex at line 113 of
`streamlit_app.py`, already lower-case as in the source. -/
def degKeywords : List String :=
  ["motor neurone", "multiple sclerosis", "muscular dystrophy", "huntington"]

/-- Line 114: `df_part['Primary_Disability'].fillna('').apply(lambda x:
bool(pattern.search(x)))` with the case-insensitive pattern of line 113.
Null text becomes the empty string; the case-insensitive search is the
search of the lower-cased keywords in the lower-cased text. -/
def degenerativeFlag (t : Option String) : Bool :=
  let s := lowerStr (t.getD "")
  degKeywords.any (fun kw => containsSeq kw.data s.data)

/-- Pandas elementwise `>` on two nullable numeric columns: a comparison
involving `NaN` is `False` (line 141 semantics). -/
def gtNA : Option ℚ → Option ℚ → Bool
  | some a, some b => decide (b < a)
  | _, _ => false

/-- One merged row as far as the breach filter reads it: the claimed and
benchmark unit prices (nullable, as in the CSV). -/
structure BreachRow where
  claimed : Option ℚ
  benchmark : Option ℚ
  deriving DecidableEq, Repr

/-- Line 141: `merged[merged['Original_Claimed_UnitPrice_AUD'] >
merged['Benchmark_UnitPrice_AUD']]` — the "Breaches only" checkbox
filter. -/
def breachesOnlyFilter (rows : List BreachRow) : List BreachRow :=
  rows.filter (fun r => gtNA r.claimed r.benchmark)

/-- The spec's wording of the breach predicate (claim C2): keep iff
`Benchmark_UnitPrice_AUD > 0` AND `Original_Claimed_UnitPrice_AUD >
Benchmark_UnitPrice_AUD`, nulls excluded.  Used only to compare against
the source-derived `breachesOnlyFilter`. -/
def specBreachKeep (r : BreachRow) : Bool :=
  match r.claimed, r.benchmark with
  | some c, some b => decide (0 < b) && decide (b < c)
  | _, _ => false

/-- A normalised claim-line row, with the fields the join and the filters
read.  Every CSV-sourced field is nullable. -/
structure ClaimRow where
  claim_id : Option String
  plan_id : Option String
  service_date : Option Int
  claimed : Option ℚ
  paid : Option ℚ
  benchmark : Option ℚ
  deriving DecidableEq, Repr

/-- A normalised plan row (REN_PLAN target columns, lines 80-86). -/
structure PlanRow where
  plan_id : Option String
  hashed_participant_id : Option String
  plan_start_date : Option Int
  budget : Option ℚ
  deriving DecidableEq, Repr

/-- A normalised participant row, restricted to the columns selected at
line 123 of the merge. -/
structure PartRow where
  hashed_participant_id : Option String
  state : Option String
  degenerative_flag : Bool
  deriving DecidableEq, Repr

/-- Pandas `left.merge(right, on=k, how='left')` at row level: each left
row is paired with every right row whose key equals its own; a left row
with no match is kept once, with null right fields.  Pandas matches
missing (NaN) keys to each other, so the key comparison is plain equality
of `Option` values. -/
def leftMergeOn {α β : Type} (lkey : α → Option String) (rkey : β → Option String)
    (left : List α) (right : List β) : List (α × Option β) :=
  left.flatMap (fun a =>
    match right.filter (fun b => rkey b == lkey a) with
    | [] => [(a, none)]
    | ms => ms.map (fun b => (a, some b)))

/-- Lines 119-126: `df_claim.merge(df_plan, on='Plan_ID', how='left')
.merge(df_part[...], on='Hashed_Participant_ID', how='left')`.  The key of
the second merge is the participant identifier brought in from the plan
side (null when the first merge found no plan). -/
def mergedRecords (claims : List ClaimRow) (plans : List PlanRow)
    (parts : List PartRow) : List ((ClaimRow × Option PlanRow) × Option PartRow) :=
  leftMergeOn (fun r => r.2.bind (fun p => p.hashed_participant_id))
    (fun q => q.hashed_participant_id)
    (leftMergeOn (fun c => c.plan_id) (fun p => p.plan_id) claims plans) parts

/-- The float values the draw/utilisation divisions can produce: a finite
rational, plus or minus infinity, or NaN (IEEE semantics as pandas
surfaces them). -/
inductive PFloat
  | fin (q : ℚ)
  | inf
  | ninf
  | nan
  deriving DecidableEq, Repr

/-- Float division of two finite values: `x / 0` is `inf`, `-inf` or `NaN`
according to the sign of `x`. -/
def pdivQ (x y : ℚ) : PFloat :=
  if y = 0 then (if 0 < x then .inf else if x < 0 then .ninf else .nan)
  else .fin (x / y)

/-- Division by a nullable column value: a null divisor gives NaN. -/
def pdivNA (x : ℚ) : Option ℚ → PFloat
  | none => .nan
  | some b => pdivQ x b

/-- Multiplication of a float result by the positive literal 100. -/
def pmul100 : PFloat → PFloat
  | .fin q => .fin (q * 100)
  | .inf => .inf
  | .ninf => .ninf
  | .nan => .nan

/-- Float `== 0` (line 171): NaN and the infinities compare unequal. -/
def peqZero : PFloat → Bool
  | .fin q => q == 0
  | _ => false

/-- Float `< 1` (line 172): NaN compares false, `-inf` compares true. -/
def pltOne : PFloat → Bool
  | .fin q => decide (q < 1)
  | .ninf => true
  | _ => false

/-- Lines 160-162: `Paid` is the per-plan sum over the filtered claims
(`fillna({'Paid':0})` makes it 0, hence finite, when a plan has no
filtered claims); `DrawPct = Paid / Capital_AT_Budget_Total_AUD` as float
division, so a zero budget yields `inf`/`NaN` and a missing budget `NaN`. -/
def drawPct (paid : ℚ) (budget : Option ℚ) : PFloat :=
  pdivNA paid budget

/-- A row of `plan_draw`/`draw_filt` as the KPI counts and the grouped
utilisation charts read it. -/
structure DrawRow where
  state : Option String
  mmm : Option String
  paid : ℚ
  budget : Option ℚ
  deriving DecidableEq, Repr

/-- Line 171: `(draw_filt['DrawPct'] == 0).sum()`. -/
def zeroCount (l : List DrawRow) : Nat :=
  (l.filter (fun r => peqZero (drawPct r.paid r.budget))).length

/-- Line 172: `(draw_filt['DrawPct'] < 1).sum()`. -/
def partialCount (l : List DrawRow) : Nat :=
  (l.filter (fun r => pltOne (drawPct r.paid r.budget))).length

/-- Lines 204-207, for one State group: pandas `groupby` keeps only rows
carrying this key (null keys are dropped), `sum` skips nulls (an all-null
budget sums to 0), and `Util = Paid / Budget * 100` is float arithmetic. -/
def stateGroupUtil (rows : List DrawRow) (s : String) : PFloat :=
  let g := rows.filter (fun r => r.state == some s)
  pmul100 (pdivQ ((g.map (fun r => r.paid)).sum)
    ((g.filterMap (fun r => r.budget)).sum))

/-- Lines 221-224, the same aggregation keyed by MMM_Code. -/
def mmmGroupUtil (rows : List DrawRow) (m : String) : PFloat :=
  let g := rows.filter (fun r => r.mmm == some m)
  pmul100 (pdivQ ((g.map (fun r => r.paid)).sum)
    ((g.filterMap (fun r => r.budget)).sum))

/-- A parsed CSV table.  For the loading claims only presence under a
name matters, so the payload is just a column list. -/
structure DFrame where
  cols : List String
  deriving DecidableEq, Repr

/-- The Python exceptions the embedded fragments can raise. -/
inductive PyError
  | keyError
  | indexError
  deriving DecidableEq, Repr

/-- The EXPECTED file-name set (lines 17-23). -/
def EXPECTED : List String :=
  ["a_participant.csv", "b_plan.csv", "c_claim_line.csv",
   "benchmark_history.csv", "supplementary_item_list.csv"]

/-- Python dict assignment `d[k] = v`: overwrite an existing key,
otherwise append. -/
def dictInsert (d : List (String × DFrame)) (k : String) (v : DFrame) :
    List (String × DFrame) :=
  if d.any (fun p => p.1 == k) then
    d.map (fun p => if p.1 == k then (k, v) else p)
  else d ++ [(k, v)]

/-- Python dict subscript `d[k]`: a missing key raises KeyError. -/
def dictGet (d : List (String × DFrame)) (k : String) : Except PyError DFrame :=
  match d.find? (fun p => p.1 == k) with
  | some p => .ok p.2
  | none => .error .keyError

/-- `PurePosixPath(member).name.lower()` (line 49): the lower-cased part
of the path after the last '/'. -/
def tailName (member : String) : String :=
  lowerStr ⟨member.data.foldl (fun acc c => if c = '/' then [] else acc ++ [c]) []⟩

instance exceptDecEq {ε α : Type} [DecidableEq ε] [DecidableEq α] :
    DecidableEq (Except ε α) := fun a b =>
  match a, b with
  | .error e, .error f =>
      if h : e = f then isTrue (by subst h; rfl)
      else isFalse (by intro hc; injection hc with h2; exact h h2)
  | .error _, .ok _ => isFalse (by intro hc; exact Except.noConfusion hc)
  | .ok _, .error _ => isFalse (by intro hc; exact Except.noConfusion hc)
  | .ok x, .ok y =>
      if h : x = y then isTrue (by subst h; rfl)
      else isFalse (by intro hc; injection hc with h2; exact h h2)

/-- An upload: a single flat CSV file or a ZIP archive of named members.
The Python code dispatches on the file-name extension; the constructor
records which branch of lines 41-43 applies. -/
inductive Upload
  | csvFile (name : String) (t : DFrame)
  | zipFile (name : String) (entries : List (String × DFrame))
  deriving Repr

/-- Lines 37-58.  CSV branch (lines 41-42): a flat CSV upload yields the
one-entry mapping keyed by the lower-cased upload name.  ZIP branch
(lines 43-56): iterate members, skip macOS metadata paths, and keep each
member whose lower-cased base name is in EXPECTED. -/
def load_data : Upload → List (String × DFrame)
  | .csvFile name t => [(lowerStr name, t)]
  | .zipFile _ entries =>
      entries.foldl (fun dfs e =>
        if containsSeq ("__macosx".data) (lowerStr e.1).data then dfs
        else if tailName e.1 ∈ EXPECTED then dictInsert dfs (tailName e.1) e.2
        else dfs) []

/-- Line 61: the pipeline halts with the upload prompt when fewer than 3
tables were loaded, whichever tables they are. -/
def minCheckHalts (dfs : List (String × DFrame)) : Bool :=
  dfs.length < 3

/-- Lines 66-68: past the check, the three required tables are read out of
the mapping by name; a missing name is an unhandled Python KeyError. -/
def assignTables (dfs : List (String × DFrame)) :
    Except PyError (DFrame × DFrame × DFrame) := do
  let p ← dictGet dfs "a_participant.csv"
  let pl ← dictGet dfs "b_plan.csv"
  let c ← dictGet dfs "c_claim_line.csv"
  pure (p, pl, c)

/-- The required-table names of the spec's minimum viable dataset. -/
def requiredTables : List String :=
  ["a_participant.csv", "b_plan.csv", "c_claim_line.csv"]

/-- Where the participant identifier column came from. -/
inductive IdSource
  | canonical
  | synthesized (col : String)
  deriving DecidableEq, Repr

/-- Lines 104-106: when `Hashed_Participant_ID` is absent after renaming,
the identifier is copied from `candidates[0]`, the first column whose
lower-cased name contains "id"; with no candidate the subscript on the
empty list raises an unhandled IndexError. -/
def ensureParticipantId (cols : List String) : Except PyError IdSource :=
  if "Hashed_Participant_ID" ∈ cols then .ok .canonical
  else
    match cols.filter (fun c => containsSeq ("id".data) (lowerStr c).data) with
    | [] => .error .indexError
    | c :: _ => .ok (.synthesized c)

/-- The column set of `left.merge(right, on=k, how='left')`: shared
non-key column names are suffixed `_x` on the left and `_y` on the right;
a key absent from either side raises KeyError. -/
def mergeColsOn (left right : List String) (key : String) :
    Except PyError (List String) :=
  if key ∈ left ∧ key ∈ right then
    .ok (left.map (fun c => if c ≠ key ∧ c ∈ right then c ++ "_x" else c) ++
      (right.filter (fun c => c ≠ key)).map
        (fun c => if c ∈ left then c ++ "_y" else c))
  else .error .keyError

/-- Columns of the normalised plan table (REN_PLAN values, lines 80-86). -/
def planCols : List String :=
  ["Hashed_Participant_ID", "Plan_ID", "Plan_Start_Date",
   "Capital_AT_Budget_Total_AUD", "Plan_Management_Mode"]

/-- Columns of the normalised claim table (REN_CLAIM values, lines 87-97)
without the optional participant identifier. -/
def claimColsBase : List String :=
  ["Plan_ID", "Service_Date", "Support_Item_Number",
   "Original_Claimed_UnitPrice_AUD", "Paid_UnitPrice_AUD",
   "Benchmark_UnitPrice_AUD", "Claim_ID", "Source_System"]

/-- The participant columns selected at line 123. -/
def partSelCols : List String :=
  ["Hashed_Participant_ID", "State", "MMM_Code", "Age_Band",
   "Degenerative_Flag"]

/-- Lines 119-126 at column level: the two merges in sequence. -/
def mergedCols (claimCols : List String) : Except PyError (List String) := do
  let m1 ← mergeColsOn claimCols planCols "Plan_ID"
  mergeColsOn m1 partSelCols "Hashed_Participant_ID"

/-- A filtered claim row as the cumulative curve reads it: the two parsed
dates (null on parse failure or absence). -/
structure DatedClaim where
  service_date : Option Int
  plan_start_date : Option Int
  deriving DecidableEq, Repr

/-- `Service_Date - Plan_Start_Date` in whole days; null when either date
is null. -/
def dayOf (r : DatedClaim) : Option Int :=
  match r.service_date, r.plan_start_date with
  | some s, some p => some (s - p)
  | _, _ => none

/-- Lines 291-294: the `Day` column after `query('Day>=0')`.  A null date
makes `Day` null, which fails the query, and a negative offset fails it
too — such rows are dropped, not clipped. -/
def dayOffsets (rows : List DatedClaim) : List Int :=
  rows.filterMap (fun r =>
    (dayOf r).bind (fun d => if 0 ≤ d then some d else none))

/-- `groupby('Day')` keys: the distinct day offsets in ascending order. -/
def dayKeys (offs : List Int) : List Int :=
  List.insertionSort (fun a b => a ≤ b) offs.dedup

/-- Line 298: the per-day claim counts, in ascending day order. -/
def dayCounts (rows : List DatedClaim) : List ℚ :=
  (dayKeys (dayOffsets rows)).map (fun d => ((dayOffsets rows).count d : ℚ))

/-- Pandas `cumsum`: running partial sums. -/
def cumsum (acc : ℚ) : List ℚ → List ℚ
  | [] => []
  | x :: xs => (acc + x) :: cumsum (acc + x) xs

/-- Line 299: `Pct = Cum / Count.sum() * 100` along the day-ordered
series. -/
def cumPctSeries (rows : List DatedClaim) : List ℚ :=
  (cumsum 0 (dayCounts rows)).map (fun c => c / (dayCounts rows).sum * 100)

end ATUtil

namespace ATUtil

theorem containsSeq_iff (needle : List Char) (hay : List Char) :
    containsSeq needle hay = true ↔
      ∃ pre post, hay = pre ++ needle ++ post := by
  induction hay with
  | nil =>
      simp only [containsSeq, List.isEmpty_iff]
      constructor
      · rintro rfl; exact ⟨[], [], rfl⟩
      · rintro ⟨pre, post, h⟩
        rcases List.append_eq_nil.mp ((List.append_eq_nil).mp h.symm).1 with ⟨-, h2⟩
        exact h2
  | cons c rest ih =>
      simp only [containsSeq, Bool.or_eq_true, ih, List.isPrefixOf_iff_prefix]
      constructor
      · rintro (hpre | ⟨pre, post, rfl⟩)
        · rcases hpre with ⟨t, ht⟩
          exact ⟨[], t, by simpa using ht.symm⟩
        · exact ⟨c :: pre, post, rfl⟩
      · rintro ⟨pre, post, hsplit⟩
        cases pre with
        | nil =>
            left
            exact ⟨post, by simpa using hsplit.symm⟩
        | cons c0 pre0 =>
            right
            refine ⟨pre0, post, ?_⟩
            have := hsplit
            simp only [List.cons_append] at this
            exact (List.cons.injEq .. ▸ this).2

/-- C6: for every participant record the degenerative flag is true iff the
`Primary_Disability` text (absent text read as empty) contains one of the
four keywords case-insensitively, and it is false for null or empty
text. -/
theorem degenerative_flag_spec :
    (∀ t : Option String, degenerativeFlag t = true ↔
      ∃ kw ∈ degKeywords, ∃ pre post,
        (lowerStr (t.getD "")).data = pre ++ kw.data ++ post) ∧
    degenerativeFlag none = false ∧ degenerativeFlag (some "") = false := by
  refine ⟨?_, by decide, by decide⟩
  intro t
  simp only [degenerativeFlag, List.any_eq_true]
  constructor
  · rintro ⟨kw, hkw, hc⟩
    exact ⟨kw, hkw, (containsSeq_iff _ _).mp hc⟩
  · rintro ⟨kw, hkw, pre, post, h⟩
    exact ⟨kw, hkw, (containsSeq_iff _ _).mpr ⟨pre, post, h⟩⟩

theorem gtNA_eq_true_iff (c b : Option ℚ) :
    gtNA c b = true ↔ ∃ x y, c = some x ∧ b = some y ∧ y < x := by
  cases c <;> cases b <;> simp [gtNA]

/-- C2 counterexample: a merged row with a zero benchmark and a larger
claimed price is KEPT by the "Breaches only" filter, although the spec's
predicate (benchmark > 0 required) rejects it. -/
theorem breach_filter_zero_benchmark_kept :
    breachesOnlyFilter [⟨some 100, some 0⟩] = [⟨some 100, some 0⟩] ∧
    specBreachKeep ⟨some 100, some 0⟩ = false := by
  exact ⟨by decide, by decide⟩

/-- C2 amended: the "Breaches only" filter keeps a merged row iff both
prices are non-null and the claimed price strictly exceeds the benchmark;
no `benchmark > 0` condition is applied, and rows with a null claimed or
null benchmark price are excluded. -/
theorem breach_filter_keeps_iff (rows : List BreachRow) (r : BreachRow) :
    r ∈ breachesOnlyFilter rows ↔
      r ∈ rows ∧ ∃ c b, r.claimed = some c ∧ r.benchmark = some b ∧ b < c := by
  simp only [breachesOnlyFilter, List.mem_filter, gtNA_eq_true_iff]

theorem filter_key_length_le_one {β : Type} (key : β → Option String)
    (l : List β) (h : (l.map key).Nodup) (k : Option String) :
    (l.filter (fun b => key b == k)).length ≤ 1 := by
  induction l with
  | nil => simp
  | cons x xs ih =>
      rw [List.map_cons, List.nodup_cons] at h
      rw [List.filter_cons]
      by_cases hx : key x == k
      · simp only [hx, if_true]
        have hnil : xs.filter (fun b => key b == k) = [] := by
          rw [List.filter_eq_nil_iff]
          intro b hb hbk
          apply h.1
          have hbeq : key b = k := by simpa using hbk
          have hxeq : key x = k := by simpa using hx
          rw [List.mem_map]
          exact ⟨b, hb, by rw [hbeq, hxeq]⟩
        simp [hnil]
      · simp only [hx, if_false]
        exact ih h.2

theorem leftMergeOn_length {α β : Type} (lkey : α → Option String)
    (rkey : β → Option String) (left : List α) (right : List β)
    (h : (right.map rkey).Nodup) :
    (leftMergeOn lkey rkey left right).length = left.length := by
  induction left with
  | nil => rfl
  | cons a as ih =>
      rw [leftMergeOn, List.flatMap_cons, List.length_append]
      rw [leftMergeOn] at ih
      rw [ih, List.length_cons]
      have hle := filter_key_length_le_one rkey right h (lkey a)
      rcases hfilter : right.filter (fun b => rkey b == lkey a) with _ | ⟨m, ms⟩
      · simp only [List.length_cons, List.length_nil]
        omega
      · rw [hfilter] at hle
        simp only [List.length_cons] at hle
        simp only [List.length_map, List.length_cons]
        omega

/-- C1: with `Plan_ID` a unique key of the plan table and
`Hashed_Participant_ID` a unique key of the participant table, the
two-step left join produces exactly one MergedRecord row per input claim
line, whether or not a matching plan or participant exists. -/
theorem mergedRecords_length (claims : List ClaimRow) (plans : List PlanRow)
    (parts : List PartRow)
    (hplan : (plans.map (fun p => p.plan_id)).Nodup)
    (hpart : (parts.map (fun q => q.hashed_participant_id)).Nodup) :
    (mergedRecords claims plans parts).length = claims.length := by
  rw [mergedRecords, leftMergeOn_length _ _ _ _ hpart,
    leftMergeOn_length _ _ _ _ hplan]

/-- C1 witness: a single claim line with no matching plan and no
participant table still yields exactly one merged row. -/
theorem mergedRecords_length_witness :
    (mergedRecords [⟨some "c1", some "pl1", none, none, none, none⟩]
      [⟨some "pl2", some "h1", none, some 100⟩]
      [⟨some "h1", some "NSW", false⟩]).length = 1 :=
  mergedRecords_length _ _ _ (by decide) (by decide)

/-- C4 counterexample: a zero-budget plan's DrawPct is the float infinity
(positive paid) or NaN (zero paid) — not a sentinel distinct from
infinity and NaN. -/
theorem drawPct_zero_budget_counterexample :
    drawPct 5 (some 0) = PFloat.inf ∧ drawPct 0 (some 0) = PFloat.nan :=
  ⟨by decide, by decide⟩

/-- C4 amended: for a zero-budget plan, DrawPct is `inf` when paid is
positive and `NaN` when paid is zero; in either case both KPI comparisons
(`== 0` and `< 1`) are false, so such a plan is consistently counted in
neither the "0% draw" nor the "<100% draw" KPI. -/
theorem drawPct_zero_budget_policy (paid : ℚ) (h : 0 ≤ paid) :
    drawPct paid (some 0) = (if 0 < paid then PFloat.inf else PFloat.nan) ∧
    peqZero (drawPct paid (some 0)) = false ∧
    pltOne (drawPct paid (some 0)) = false ∧
    zeroCount [⟨none, none, paid, some 0⟩] = 0 ∧
    partialCount [⟨none, none, paid, some 0⟩] = 0 := by
  have hnl : ¬ paid < 0 := not_lt.mpr h
  by_cases hp : 0 < paid <;>
    simp [drawPct, pdivNA, pdivQ, hp, hnl, peqZero, pltOne, zeroCount,
      partialCount, List.filter]

/-- C4 witness: the amended statement at paid = 5, budget = 0. -/
theorem drawPct_zero_budget_policy_witness :
    drawPct 5 (some 0) = (if 0 < (5 : ℚ) then PFloat.inf else PFloat.nan) ∧
    peqZero (drawPct 5 (some 0)) = false ∧
    pltOne (drawPct 5 (some 0)) = false ∧
    zeroCount [⟨none, none, 5, some 0⟩] = 0 ∧
    partialCount [⟨none, none, 5, some 0⟩] = 0 :=
  drawPct_zero_budget_policy 5 (by decide)

theorem pmul100_pdivQ_zero_cases (P : ℚ) :
    pmul100 (pdivQ P 0) = PFloat.nan ∨ pmul100 (pdivQ P 0) = PFloat.inf ∨
      pmul100 (pdivQ P 0) = PFloat.ninf := by
  by_cases h1 : 0 < P
  · right; left; simp [pdivQ, h1, pmul100]
  · by_cases h2 : P < 0
    · right; right; simp [pdivQ, h1, h2, pmul100]
    · left; simp [pdivQ, h1, h2, pmul100]

/-- C5 counterexample: a State group whose summed budget is zero (one
plan, paid 0, budget 0) reports NaN utilisation, not 0. -/
theorem groupUtil_zero_budget_counterexample :
    stateGroupUtil [⟨some "NSW", none, 0, some 0⟩] "NSW" = PFloat.nan ∧
    stateGroupUtil [⟨some "NSW", none, 0, some 0⟩] "NSW" ≠ PFloat.fin 0 := by
  have h : stateGroupUtil [⟨some "NSW", none, 0, some 0⟩] "NSW" = PFloat.nan := by
    simp [stateGroupUtil, List.filter, List.filterMap, List.sum_cons,
      List.sum_nil, pdivQ, pmul100]
  rw [h]
  exact ⟨rfl, by simp⟩

/-- C5 amended: a group (by State or by MMM region) whose summed budget is
zero reports NaN or ±infinity utilisation — never the finite value 0. -/
theorem groupUtil_zero_budget (rows : List DrawRow) (s m : String)
    (hs : ((rows.filter (fun r => r.state == some s)).filterMap
      (fun r => r.budget)).sum = 0)
    (hm : ((rows.filter (fun r => r.mmm == some m)).filterMap
      (fun r => r.budget)).sum = 0) :
    stateGroupUtil rows s ≠ PFloat.fin 0 ∧ mmmGroupUtil rows m ≠ PFloat.fin 0 ∧
    (stateGroupUtil rows s = PFloat.nan ∨ stateGroupUtil rows s = PFloat.inf ∨
      stateGroupUtil rows s = PFloat.ninf) ∧
    (mmmGroupUtil rows m = PFloat.nan ∨ mmmGroupUtil rows m = PFloat.inf ∨
      mmmGroupUtil rows m = PFloat.ninf) := by
  have h1 : stateGroupUtil rows s =
      pmul100 (pdivQ ((rows.filter (fun r => r.state == some s)).map
        (fun r => r.paid)).sum 0) := by
    simp only [stateGroupUtil]
    rw [hs]
  have h2 : mmmGroupUtil rows m =
      pmul100 (pdivQ ((rows.filter (fun r => r.mmm == some m)).map
        (fun r => r.paid)).sum 0) := by
    simp only [mmmGroupUtil]
    rw [hm]
  rw [h1, h2]
  refine ⟨?_, ?_, pmul100_pdivQ_zero_cases _, pmul100_pdivQ_zero_cases _⟩
  · rcases pmul100_pdivQ_zero_cases ((rows.filter (fun r => r.state == some s)).map
      (fun r => r.paid)).sum with h | h | h <;> simp [h]
  · rcases pmul100_pdivQ_zero_cases ((rows.filter (fun r => r.mmm == some m)).map
      (fun r => r.paid)).sum with h | h | h <;> simp [h]

/-- C5 witness: the amended statement at one row with paid 0, budget 0. -/
theorem groupUtil_zero_budget_witness :
    stateGroupUtil [⟨some "NSW", some "MM1", 0, some 0⟩] "NSW" ≠ PFloat.fin 0 ∧
    mmmGroupUtil [⟨some "NSW", some "MM1", 0, some 0⟩] "MM1" ≠ PFloat.fin 0 ∧
    (stateGroupUtil [⟨some "NSW", some "MM1", 0, some 0⟩] "NSW" = PFloat.nan ∨
      stateGroupUtil [⟨some "NSW", some "MM1", 0, some 0⟩] "NSW" = PFloat.inf ∨
      stateGroupUtil [⟨some "NSW", some "MM1", 0, some 0⟩] "NSW" = PFloat.ninf) ∧
    (mmmGroupUtil [⟨some "NSW", some "MM1", 0, some 0⟩] "MM1" = PFloat.nan ∨
      mmmGroupUtil [⟨some "NSW", some "MM1", 0, some 0⟩] "MM1" = PFloat.inf ∨
      mmmGroupUtil [⟨some "NSW", some "MM1", 0, some 0⟩] "MM1" = PFloat.ninf) :=
  groupUtil_zero_budget _ "NSW" "MM1"
    (by simp [List.filter, List.filterMap])
    (by simp [List.filter, List.filterMap])

/-- C3 (code bug evidence): an archive holding the participant table and
the two optional tables — but neither the plan nor the claim-line table —
passes the `len(dfs) < 3` check, and the table assignment then raises a
KeyError instead of halting with the upload prompt. -/
theorem min_check_passes_without_required_tables :
    minCheckHalts (load_data (.zipFile "data.zip"
      [("a_participant.csv", ⟨[]⟩), ("benchmark_history.csv", ⟨[]⟩),
       ("supplementary_item_list.csv", ⟨[]⟩)])) = false ∧
    assignTables (load_data (.zipFile "data.zip"
      [("a_participant.csv", ⟨[]⟩), ("benchmark_history.csv", ⟨[]⟩),
       ("supplementary_item_list.csv", ⟨[]⟩)])) =
      Except.error PyError.keyError ∧
    ¬ ("b_plan.csv" ∈ (load_data (.zipFile "data.zip"
      [("a_participant.csv", ⟨[]⟩), ("benchmark_history.csv", ⟨[]⟩),
       ("supplementary_item_list.csv", ⟨[]⟩)])).map Prod.fst) := by
  refine ⟨by decide, by decide, by decide⟩

/-- C9: a single flat CSV upload loads as a one-entry mapping keyed by the
lower-cased file name, so the minimum-dataset check (`len(dfs) < 3`)
always halts the pipeline and aggregation is never reached. -/
theorem single_csv_always_halts (name : String) (t : DFrame) :
    (load_data (.csvFile name t)).length = 1 ∧
    minCheckHalts (load_data (.csvFile name t)) = true :=
  ⟨rfl, rfl⟩

/-- C8 counterexample: a participant table with no column containing "id"
makes the fallback crash with an unhandled IndexError (`candidates[0]` on
an empty list); no MissingIdentifierError is signalled anywhere. -/
theorem missing_identifier_crashes :
    ensureParticipantId ["state", "age_band"] =
      Except.error PyError.indexError := by decide

/-- C8 amended: when the canonical identifier is absent after renaming,
the identifier is synthesized from the first column whose name contains
"id" (case-insensitively); when no such column exists, the code raises an
unhandled IndexError rather than signalling a MissingIdentifierError. -/
theorem ensureParticipantId_spec (cols : List String)
    (habs : "Hashed_Participant_ID" ∉ cols) :
    (∀ c cs, cols.filter
        (fun x => containsSeq ("id".data) (lowerStr x).data) = c :: cs →
      ensureParticipantId cols = Except.ok (.synthesized c)) ∧
    (cols.filter (fun x => containsSeq ("id".data) (lowerStr x).data) = [] →
      ensureParticipantId cols = Except.error PyError.indexError) := by
  constructor
  · intro c cs hf
    rw [ensureParticipantId, if_neg habs, hf]
  · intro hf
    rw [ensureParticipantId, if_neg habs, hf]

/-- C8 witness: the amended statement at a table whose only candidate
column is "person_id". -/
theorem ensureParticipantId_spec_witness :
    ensureParticipantId ["person_id", "state"] =
      Except.ok (.synthesized "person_id") :=
  (ensureParticipantId_spec ["person_id", "state"] (by decide)).1
    "person_id" [] (by decide)

/-- C10: at the normalised schemas, a claim table carrying its own
`Hashed_Participant_ID` collides with the plan table's in the first merge:
the column is suffixed to `_x`/`_y`, the canonical name disappears, and
the second merge on `Hashed_Participant_ID` raises a KeyError; without the
column the two-step merge succeeds. -/
theorem claim_participant_id_breaks_join :
    (((mergeColsOn (claimColsBase ++ ["Hashed_Participant_ID"]) planCols
        "Plan_ID").toOption.getD []).contains "Hashed_Participant_ID_x" = true) ∧
    (((mergeColsOn (claimColsBase ++ ["Hashed_Participant_ID"]) planCols
        "Plan_ID").toOption.getD []).contains "Hashed_Participant_ID_y" = true) ∧
    (((mergeColsOn (claimColsBase ++ ["Hashed_Participant_ID"]) planCols
        "Plan_ID").toOption.getD []).contains "Hashed_Participant_ID" = false) ∧
    mergedCols (claimColsBase ++ ["Hashed_Participant_ID"]) =
      Except.error PyError.keyError ∧
    (mergedCols claimColsBase).toOption.isSome = true := by
  refine ⟨by decide, by decide, by decide, by decide, by decide⟩

theorem cumsum_le_of_nonneg (l : List ℚ) :
    ∀ acc, (∀ x ∈ l, 0 ≤ x) → ∀ y ∈ cumsum acc l, acc ≤ y := by
  induction l with
  | nil =>
      intro acc _ y hy
      simp [cumsum] at hy
  | cons x xs ih =>
      intro acc hnn y hy
      have hx : 0 ≤ x := hnn x (by simp)
      rw [cumsum, List.mem_cons] at hy
      rcases hy with rfl | hy
      · linarith
      · have h1 : acc + x ≤ y :=
          ih (acc + x) (fun z hz => hnn z (by simp [hz])) y hy
        linarith

theorem cumsum_sorted (l : List ℚ) :
    ∀ acc, (∀ x ∈ l, 0 ≤ x) → List.Sorted (fun a b => a ≤ b) (cumsum acc l) := by
  induction l with
  | nil => intro acc _; simp [cumsum]
  | cons x xs ih =>
      intro acc hnn
      rw [cumsum, List.sorted_cons]
      exact ⟨fun y hy => cumsum_le_of_nonneg xs (acc + x)
          (fun z hz => hnn z (by simp [hz])) y hy,
        ih (acc + x) (fun z hz => hnn z (by simp [hz]))⟩

theorem cumsum_getLast (l : List ℚ) :
    ∀ acc, l ≠ [] → (cumsum acc l).getLast? = some (acc + l.sum) := by
  induction l with
  | nil => intro acc h; exact absurd rfl h
  | cons x xs ih =>
      intro acc _
      cases xs with
      | nil => simp [cumsum]
      | cons y ys =>
          have h2 := ih (acc + x) (by simp)
          rw [show cumsum acc (x :: y :: ys) =
            (acc + x) :: cumsum (acc + x) (y :: ys) from rfl]
          rw [show cumsum (acc + x) (y :: ys) =
            (acc + x + y) :: cumsum (acc + x + y) ys from rfl] at h2 ⊢
          rw [List.getLast?_cons_cons, h2]
          simp only [List.sum_cons, Option.some.injEq]
          ring

theorem dayCounts_nonneg (rows : List DatedClaim) :
    ∀ x ∈ dayCounts rows, 0 ≤ x := by
  intro x hx
  rw [dayCounts] at hx
  rcases List.mem_map.mp hx with ⟨d, _, rfl⟩
  exact Nat.cast_nonneg _

theorem sum_map_natCast (l : List Nat) :
    (l.map (fun n : Nat => (n : ℚ))).sum = (l.sum : ℚ) := by
  induction l with
  | nil => simp
  | cons x xs ih =>
      rw [List.map_cons, List.sum_cons, ih, List.sum_cons, Nat.cast_add]

theorem dayCounts_sum (rows : List DatedClaim) :
    (dayCounts rows).sum = ((dayOffsets rows).length : ℚ) := by
  rw [dayCounts]
  have h1 : (dayKeys (dayOffsets rows)).map
      (fun d => ((dayOffsets rows).count d : ℚ)) =
      ((dayKeys (dayOffsets rows)).map
        (fun d => (dayOffsets rows).count d)).map (fun n : Nat => (n : ℚ)) := by
    rw [List.map_map]; rfl
  rw [h1, sum_map_natCast]
  have hperm : List.Perm (dayKeys (dayOffsets rows)) (dayOffsets rows).dedup :=
    List.perm_insertionSort _ _
  have h2 := (hperm.map (fun d => (dayOffsets rows).count d)).sum_eq
  rw [h2, List.sum_map_count_dedup_eq_length]

theorem dayCounts_ne_nil (rows : List DatedClaim) (h : dayOffsets rows ≠ []) :
    dayCounts rows ≠ [] := by
  rw [dayCounts]
  intro hc
  apply h
  have hkeys := List.map_eq_nil_iff.mp hc
  have hperm : List.Perm (dayKeys (dayOffsets rows)) (dayOffsets rows).dedup :=
    List.perm_insertionSort _ _
  rw [hkeys] at hperm
  exact (List.dedup_eq_nil _).mp hperm.symm.eq_nil

theorem dayOffsets_count_zero (rows : List DatedClaim) :
    (dayOffsets rows).count 0 =
      (rows.filter (fun r => dayOf r == some 0)).length := by
  induction rows with
  | nil => rfl
  | cons r rs ih =>
      rw [dayOffsets, List.filterMap_cons, List.filter_cons]
      rw [dayOffsets] at ih
      cases hd : dayOf r with
      | none => simpa [hd] using ih
      | some d =>
          by_cases hd0 : d = 0
          · subst hd0
            simp [hd, List.count_cons, ih]
          · by_cases hdge : 0 ≤ d
            · simp [hd, hdge, List.count_cons, hd0, ih]
            · simp [hd, hdge, hd0, ih]

theorem cumPctSeries_sorted (rows : List DatedClaim) :
    List.Sorted (fun a b => a ≤ b) (cumPctSeries rows) := by
  have hsort := cumsum_sorted (dayCounts rows) 0 (dayCounts_nonneg rows)
  rw [cumPctSeries]
  refine List.Pairwise.map _ ?_ hsort
  intro a b hab
  have hT : (0 : ℚ) ≤ (dayCounts rows).sum :=
    List.sum_nonneg (dayCounts_nonneg rows)
  rcases eq_or_lt_of_le hT with hT0 | hTpos
  · rw [← hT0]
    simp
  · exact mul_le_mul_of_nonneg_right
      ((div_le_div_iff_of_pos_right hTpos).mpr hab) (by norm_num)

theorem cumPctSeries_last (rows : List DatedClaim) (h : dayOffsets rows ≠ []) :
    (cumPctSeries rows).getLast? = some 100 := by
  have hne := dayCounts_ne_nil rows h
  rw [cumPctSeries, List.getLast?_map, cumsum_getLast _ 0 hne]
  have hlen : ((dayOffsets rows).length : ℚ) ≠ 0 := by
    rw [Nat.cast_ne_zero]
    exact fun h0 => h (List.length_eq_zero.mp h0)
  rw [Option.map_some', zero_add, dayCounts_sum, div_self hlen]
  norm_num

/-- C7: in the cumulative paid-claim share series, rows with a null date
or a negative day offset are discarded rather than clipped to zero (the
zero-offset count comes exactly from the rows whose offset is zero), the
percentage series is monotonically non-decreasing along ascending day
offsets, and whenever at least one eligible claim exists the final value
is exactly 100. -/
theorem cumulative_curve_spec (rows : List DatedClaim) :
    List.Sorted (fun a b => a ≤ b) (cumPctSeries rows) ∧
    (dayOffsets rows).count 0 =
      (rows.filter (fun r => dayOf r == some 0)).length ∧
    (dayOffsets rows ≠ [] → (cumPctSeries rows).getLast? = some 100) :=
  ⟨cumPctSeries_sorted rows, dayOffsets_count_zero rows,
    cumPctSeries_last rows⟩

/-- C7 witness: two eligible claims (offsets 0 and 3) plus one claim dated
before plan start: the offset list is non-empty and the series ends at
exactly 100. -/
theorem cumulative_curve_spec_witness :
    dayOffsets [⟨some 10, some 10⟩, ⟨some 13, some 10⟩, ⟨some 5, some 10⟩] ≠ [] ∧
    (cumPctSeries [⟨some 10, some 10⟩, ⟨some 13, some 10⟩,
      ⟨some 5, some 10⟩]).getLast? = some 100 :=
  ⟨by decide, (cumulative_curve_spec _).2.2 (by decide)⟩

end ATUtil
